import Mathlib

/-!
# Button: debounced edge and gesture detector

A shallow embedding of `Button::init` and `Button::process` (src/Button.cpp)
together with the polling accessors of src/Button.cpp and
src/include/button/button.h, followed by theorems about the events a polling
loop recognises.

Conventions of the embedding.

* `millis()` is a 32-bit unsigned clock: every timestamp is reduced modulo
  `2^32` and differences are taken modulo `2^32` (`sub32`).
* `digitalRead(myPin) == mode` is read from the outside world; its boolean
  value is the `reading` argument of `process`.
* The three bits `CURRENT`, `PREVIOUS`, `CHANGED` of the state byte are the
  boolean fields `current`, `previous`, `changed`.
* An event is recognised at the place where the source logs it under
  `DEBUG_SERIAL` and calls the registered handler (`cb_onPress`,
  `cb_onRelease`, `cb_onClick`, `cb_onHold`); `process` returns the events of
  one cycle in the order in which they are recognised.
* src/include/button/button.h declares a later class (`setHoldRepeats`,
  `nHolds`, `cycle`) whose `process()` and `held()` are not in the sources.
  `cycle` is embedded from the header with the value of `held()` and the width
  of `int` as arguments; repeating holds are stated on `Detector` and
  `evaluate`, which follow the algorithm of the spec.
-/

/-- Events recognised by one call of `Button::process`. -/
inductive Event where
  | press
  | release
  | click
  | hold
deriving DecidableEq

/-- Value of a signed integer after conversion to `uint32_t`. -/
def u32 (x : Int) : Nat := (x % 4294967296).toNat

/-- Subtraction of two `uint32_t` values, `a - b` modulo `2^32`. -/
def sub32 (a b : Nat) : Nat := (a % 4294967296 + 4294967296 - b % 4294967296) % 4294967296

/-- The bit pattern of `-1` in a `uint32_t`, stored in `pressedStartTime` on release. -/
def noPress : Nat := 4294967295

/-- Constants of the header `Button.h` included by src/Button.cpp, which is not
part of the sources; they are parameters of `init`. -/
structure Consts where
  BUTTON_PULLDOWN : Nat
  BUTTON_PULLUP : Nat
  DEFAULT_HOLD_TIME : Nat

/-- Member variables of a `Button`. Time stamps are `uint32_t` values as in
src/include/button/button.h, `debounceDuration` is the `int` handed to
`Button::init`, and the fields `holdRepeats` and `nHolds` are `m_holdRepeats`
and `m_nHolds` of src/include/button/button.h; no function of src/Button.cpp
reads or writes these two. -/
structure Button where
  mode : Nat
  current : Bool
  previous : Bool
  changed : Bool
  debounceMode : Bool
  debounceDuration : Int
  debounceStartTime : Nat
  pressedStartTime : Nat
  holdEventThreshold : Nat
  numberOfPresses : Nat
  triggeredHoldEvent : Bool
  holdRepeats : Bool
  nHolds : Nat
deriving DecidableEq

namespace Button

/-- `Button::pulldown`. -/
def pulldown (b : Button) (k : Consts) : Button :=
  { b with mode := k.BUTTON_PULLDOWN }

/-- `Button::pullup`; writing the pin HIGH for the internal pull-up does not
touch the object. -/
def pullup (b : Button) (k : Consts) (_buttonMode : Nat) : Button :=
  { b with mode := k.BUTTON_PULLUP }

/-- `Button::init`, called at clock value `millis`. Fields that `init` does not
assign (`pressedStartTime`, `holdRepeats`, `nHolds`) keep the value found in
the object `b`. -/
def init (b : Button) (k : Consts) (buttonMode : Nat) (debounceMode : Bool)
    (debounceDuration : Int) (millis : Nat) : Button :=
  let b1 := { b with debounceMode := debounceMode
                     debounceDuration := debounceDuration
                     debounceStartTime := millis % 4294967296 }
  let b2 := if buttonMode = k.BUTTON_PULLDOWN then pulldown b1 k else pullup b1 k buttonMode
  { b2 with current := decide (b2.mode = 0)
            previous := false
            changed := false
            numberOfPresses := 0
            triggeredHoldEvent := true
            holdEventThreshold := k.DEFAULT_HOLD_TIME }

/-- `Button::process`: one polling cycle with pin reading `reading`
(the value of `digitalRead(myPin) == mode`) at clock value `millis`.
Returns the new object and the events recognised, in order. -/
def process (b : Button) (reading : Bool) (millis : Nat) : Button × List Event :=
  let b1 := { b with previous := b.current, current := reading }
  let currentMillis := millis % 4294967296
  if b1.current != b1.previous then
    let interval := sub32 currentMillis b1.debounceStartTime
    if b1.debounceMode && decide (interval < u32 b1.debounceDuration) then
      (b1, [])
    else
      let b2 := { b1 with debounceStartTime := currentMillis }
      if b2.current then
        ({ b2 with numberOfPresses := b2.numberOfPresses + 1
                   pressedStartTime := currentMillis
                   triggeredHoldEvent := false
                   changed := true }, [Event.press])
      else
        ({ b2 with pressedStartTime := noPress
                   changed := true },
          Event.release :: (if !b2.triggeredHoldEvent then [Event.click] else []))
  else
    let b2 := { b1 with changed := false }
    if b2.pressedStartTime != noPress && !b2.triggeredHoldEvent && b2.current then
      if sub32 currentMillis b2.pressedStartTime > b2.holdEventThreshold then
        ({ b2 with triggeredHoldEvent := true }, [Event.hold])
      else
        (b2, [])
    else
      (b2, [])

/-- `Button::pressed`. -/
def pressed (b : Button) : Bool := b.current

/-- `Button::stateChanged`. -/
def stateChanged (b : Button) : Bool := b.changed

/-- `Button::uniquePress`, the polling query called `press()` in the header. -/
def uniquePress (b : Button) : Bool := b.pressed && b.stateChanged

/-- `Button::held`. -/
def held (b : Button) : Bool := (b.pressedStartTime != noPress) && b.triggeredHoldEvent

/-- `Button::holdTime` at clock value `millis`. -/
def holdTime (b : Button) (millis : Nat) : Nat :=
  if !b.pressed then 0 else sub32 (millis % 4294967296) b.pressedStartTime

/-- `Button::setHoldThreshold`. -/
def setHoldThreshold (b : Button) (holdTime : Nat) : Button :=
  { b with holdEventThreshold := holdTime % 4294967296 }

/-- A polling loop: `process` is called once per entry of `inputs`
(pin reading, clock value). Returns the final object and, per cycle, the
events recognised in that cycle. -/
def run (b : Button) : List (Bool × Nat) → Button × List (List Event)
  | [] => (b, [])
  | (reading, millis) :: rest =>
    let r := process b reading millis
    let q := run r.1 rest
    (q.1, r.2 :: q.2)

/-- Number of occurrences of event `e` in the cycles of a trace. -/
def countEvent (e : Event) (trace : List (List Event)) : Nat :=
  (trace.map (fun evs => evs.count e)).sum

/-- `Button::cycle` of src/include/button/button.h, called with a non-null
`on`: the returned cycle number and the value left in `*on`. The arguments are
the width `intBits` of `int` on the platform, the value `held` returned by
`held()` of that class (declared in the header, body not in the sources) and
the `uint16_t` member `m_nHolds`. With an `int` of 16 bits `m_nHolds + 1` is
an unsigned 16-bit sum and wraps; with a wider `int` the operand is promoted
to `int` and the sum is exact. -/
def cycle (intBits : Nat) (held : Bool) (m_nHolds : Nat) : Nat × Bool :=
  let n := m_nHolds % 65536
  if held then
    ((if intBits ≤ 16 then (n + 1) % 65536 else n + 1) / 2,
      if (n &&& 1) != 0 then true else false)
  else
    (0, false)

/-- The press and release events of a trace, in the order of recognition. -/
def pressRelease (trace : List (List Event)) : List Event :=
  trace.flatten.filter (fun e => e == Event.press || e == Event.release)

/-- Whether a list of press and release events alternates, beginning with a
release when `down` is true and with a press when `down` is false. -/
def alternating (down : Bool) : List Event → Bool
  | [] => true
  | e :: rest =>
    (e == (if down then Event.release else Event.press)) && alternating (!down) rest

/-- Constant values used in the scenarios: `LOW`, `HIGH` and the 500 ms of
`kDefaultHoldTime`. -/
def sampleConsts : Consts := ⟨0, 1, 500⟩

/-- A zero-filled object, as found by the constructor of a global `Button`. -/
def blank : Button := ⟨0, false, false, false, false, 0, 0, 0, 0, 0, false, false, 0⟩

/-- A pull-up button with debouncing of 20 ms and the default hold time of
500 ms, initialised at clock value `t`; `holdRepeats` is false. -/
def fresh (t : Nat) : Button := init blank sampleConsts 1 true 20 t

end Button

namespace Button

/-! ## Arithmetic of the 32-bit clock -/

theorem sub32_mod_left (a b : Nat) : sub32 (a % 4294967296) b = sub32 a b := by
  simp [sub32]

theorem sub32_mod_right (a b : Nat) : sub32 a (b % 4294967296) = sub32 a b := by
  simp [sub32]

/-! ## One cycle of `process`, branch by branch -/

/-- A candidate edge inside the debounce window only shifts the level bits. -/
theorem process_rejected (b : Button) (reading : Bool) (millis : Nat)
    (hmode : b.debounceMode = true) (hedge : reading ≠ b.current)
    (hwin : sub32 millis b.debounceStartTime < u32 b.debounceDuration) :
    b.process reading millis = ({ b with previous := b.current, current := reading }, []) := by
  simp [process, sub32_mod_left, hmode, hedge, hwin]

/-- An accepted press edge. -/
theorem process_press (b : Button) (millis : Nat) (hrel : b.current = false)
    (hacc : ¬ (b.debounceMode = true ∧
      sub32 millis b.debounceStartTime < u32 b.debounceDuration)) :
    b.process true millis =
      ({ b with previous := false, current := true
                debounceStartTime := millis % 4294967296
                numberOfPresses := b.numberOfPresses + 1
                pressedStartTime := millis % 4294967296
                triggeredHoldEvent := false
                changed := true }, [Event.press]) := by
  simp only [not_and] at hacc
  by_cases hm : b.debounceMode = true
  · have := hacc hm
    simp [process, sub32_mod_left, hrel, hm, this]
  · simp [process, sub32_mod_left, hrel, hm]

/-- A cycle without edge while the button is down, armed and below or at the
hold threshold changes nothing but the `CHANGED` and `PREVIOUS` bits. -/
theorem process_down_waiting (b : Button) (millis : Nat) (hcur : b.current = true)
    (harmed : b.triggeredHoldEvent = false)
    (hle : sub32 millis b.pressedStartTime ≤ b.holdEventThreshold) :
    b.process true millis = ({ b with previous := true, changed := false }, []) := by
  simp [process, sub32_mod_left, hcur, harmed, Nat.not_lt.mpr hle]

/-- A cycle without edge while the button is down, armed, with a recorded
press time and strictly past the hold threshold recognises the hold. -/
theorem process_down_hold (b : Button) (millis : Nat) (hcur : b.current = true)
    (harmed : b.triggeredHoldEvent = false) (hp : b.pressedStartTime ≠ noPress)
    (hgt : b.holdEventThreshold < sub32 millis b.pressedStartTime) :
    b.process true millis =
      ({ b with previous := true, changed := false, triggeredHoldEvent := true },
        [Event.hold]) := by
  simp [process, sub32_mod_left, hcur, harmed, hp, hgt]

/-- Inside the debounce window a cycle leaves the debounce fields alone and
recognises nothing, or a hold. -/
theorem process_in_window (b : Button) (reading : Bool) (millis : Nat)
    (hmode : b.debounceMode = true)
    (hwin : sub32 millis b.debounceStartTime < u32 b.debounceDuration) :
    (b.process reading millis).1.debounceMode = b.debounceMode ∧
    (b.process reading millis).1.debounceDuration = b.debounceDuration ∧
    (b.process reading millis).1.debounceStartTime = b.debounceStartTime ∧
    ((b.process reading millis).2 = [] ∨ (b.process reading millis).2 = [Event.hold]) := by
  by_cases hedge : reading = b.current
  · subst hedge
    simp only [process, bne_self_eq_false, Bool.false_eq_true, if_false]
    split <;> [split; skip] <;> simp
  · rw [process_rejected b reading millis hmode hedge hwin]
    simp

end Button

namespace Button

/-- An accepted edge restarts the debounce window at the current clock value
and recognises a press (new level down) or a release (new level up) first. -/
theorem process_accepted (b : Button) (reading : Bool) (millis : Nat)
    (hedge : reading ≠ b.current)
    (hacc : u32 b.debounceDuration ≤ sub32 millis b.debounceStartTime) :
    (b.process reading millis).1.debounceMode = b.debounceMode ∧
    (b.process reading millis).1.debounceDuration = b.debounceDuration ∧
    (b.process reading millis).1.debounceStartTime = millis % 4294967296 ∧
    (b.process reading millis).2.head? =
      some (if reading = true then Event.press else Event.release) := by
  have hnot : ¬ sub32 millis b.debounceStartTime < u32 b.debounceDuration := Nat.not_lt.mpr hacc
  cases reading
  · have hcur : b.current = true := by
      cases h : b.current
      · exact absurd h.symm hedge
      · rfl
    simp [process, sub32_mod_left, hcur, hnot]
  · have hcur : b.current = false := by
      cases h : b.current
      · rfl
      · exact absurd h.symm hedge
    simp [process, sub32_mod_left, hcur, hnot]

/-! ## Polling loops -/

/-- While the button stays down, armed, and no cycle is strictly past the hold
threshold, the loop recognises nothing and stays armed. -/
theorem run_down_waiting (pre : List Nat) (s : Button) (hcur : s.current = true)
    (harmed : s.triggeredHoldEvent = false)
    (hpre : ∀ u ∈ pre, sub32 u s.pressedStartTime ≤ s.holdEventThreshold) :
    (run s (pre.map (fun u => (true, u)))).1.current = true ∧
    (run s (pre.map (fun u => (true, u)))).1.triggeredHoldEvent = false ∧
    (run s (pre.map (fun u => (true, u)))).1.pressedStartTime = s.pressedStartTime ∧
    (run s (pre.map (fun u => (true, u)))).1.holdEventThreshold = s.holdEventThreshold ∧
    ∀ evs ∈ (run s (pre.map (fun u => (true, u)))).2, evs = [] := by
  induction pre generalizing s with
  | nil => simp [run, hcur, harmed]
  | cons u rest ih =>
    have hu : sub32 u s.pressedStartTime ≤ s.holdEventThreshold := hpre u (by simp)
    have hstep := process_down_waiting s u hcur harmed hu
    have hrest := ih { s with previous := true, changed := false } hcur harmed
      (fun v hv => hpre v (by simp [hv]))
    simp only [List.map_cons, run, hstep]
    refine ⟨hrest.1, hrest.2.1, hrest.2.2.1, hrest.2.2.2.1, ?_⟩
    intro evs hevs
    rcases List.mem_cons.mp hevs with h | h
    · exact h
    · exact hrest.2.2.2.2 evs h

/-- While every cycle lies inside the debounce window of the last accepted
edge, the loop accepts no edge: the window start does not move and no press,
release or click is recognised. -/
theorem run_in_window (inputs : List (Bool × Nat)) (s : Button)
    (hmode : s.debounceMode = true)
    (hwin : ∀ x ∈ inputs, sub32 x.2 s.debounceStartTime < u32 s.debounceDuration) :
    (run s inputs).1.debounceStartTime = s.debounceStartTime ∧
    ∀ evs ∈ (run s inputs).2, evs = [] ∨ evs = [Event.hold] := by
  induction inputs generalizing s with
  | nil => simp [run]
  | cons x rest ih =>
    obtain ⟨reading, millis⟩ := x
    have hx : sub32 millis s.debounceStartTime < u32 s.debounceDuration :=
      hwin (reading, millis) (by simp)
    obtain ⟨h1, h2, h3, h4⟩ := process_in_window s reading millis hmode hx
    have hrest := ih (s.process reading millis).1 (by rw [h1, hmode])
      (fun y hy => by rw [h2, h3]; exact hwin y (by simp [hy]))
    simp only [run]
    refine ⟨by rw [hrest.1, h3], ?_⟩
    intro evs hevs
    rcases List.mem_cons.mp hevs with h | h
    · rw [h]; exact h4
    · exact hrest.2 evs h

end Button

namespace Button

/-! ## After the hold: the remainder of a continuous press -/

/-- A cycle without edge after the hold of the press recognises nothing. -/
theorem process_down_fired (b : Button) (millis : Nat) (hcur : b.current = true)
    (hfired : b.triggeredHoldEvent = true) :
    b.process true millis = ({ b with previous := true, changed := false }, []) := by
  simp [process, hcur, hfired]

/-- Once the hold of a press was recognised, further pressed cycles recognise
nothing. -/
theorem run_down_fired (post : List Nat) (s : Button) (hcur : s.current = true)
    (hfired : s.triggeredHoldEvent = true) :
    ∀ evs ∈ (run s (post.map (fun u => (true, u)))).2, evs = [] := by
  induction post generalizing s with
  | nil => simp [run]
  | cons u rest ih =>
    have hstep := process_down_fired s u hcur hfired
    have hrest := ih { s with previous := true, changed := false } hcur hfired
    simp only [List.map_cons, run, hstep]
    intro evs hevs
    rcases List.mem_cons.mp hevs with h | h
    · exact h
    · exact hrest evs h

/-- The loop over a concatenation is the loop over the second part started in
the object left by the first part. -/
theorem run_append (xs ys : List (Bool × Nat)) (s : Button) :
    run s (xs ++ ys) = ((run (run s xs).1 ys).1, (run s xs).2 ++ (run (run s xs).1 ys).2) := by
  induction xs generalizing s with
  | nil => simp [run]
  | cons x rest ih =>
    obtain ⟨reading, millis⟩ := x
    simp [run, ih]

/-- A trace of empty cycles contains no event. -/
theorem countEvent_of_all_nil (e : Event) (trace : List (List Event))
    (h : ∀ evs ∈ trace, evs = []) : countEvent e trace = 0 := by
  induction trace with
  | nil => rfl
  | cons evs rest ih =>
    have h0 : evs = [] := h evs (by simp)
    have hr := ih (fun x hx => h x (by simp [hx]))
    simp only [countEvent, List.map_cons, List.sum_cons] at hr ⊢
    rw [h0, hr]
    rfl

theorem countEvent_append (e : Event) (xs ys : List (List Event)) :
    countEvent e (xs ++ ys) = countEvent e xs + countEvent e ys := by
  simp [countEvent]

/-- A press accepted at a clock value `p` other than the bit pattern of `-1`
that stays pressed through cycles `pre` (not past the threshold), a cycle `t`
strictly past the threshold and any further cycles `post` recognises exactly
one hold, whatever the value of `holdRepeats`. -/
theorem hold_once_when_press_time_recorded (b : Button) (p : Nat) (pre : List Nat) (t : Nat)
    (post : List Nat)
    (hrel : b.current = false)
    (hacc : ¬ (b.debounceMode = true ∧
      sub32 p b.debounceStartTime < u32 b.debounceDuration))
    (hp : p % 4294967296 ≠ noPress)
    (hpre : ∀ u ∈ pre, sub32 u p ≤ b.holdEventThreshold)
    (ht : b.holdEventThreshold < sub32 t p) :
    countEvent Event.hold
      (run (b.process true p).1 ((pre ++ t :: post).map (fun u => (true, u)))).2 = 1 := by
  rw [process_press b p hrel hacc]
  obtain ⟨h1, h2, h3, h4, h5⟩ := run_down_waiting pre
    { b with previous := false, current := true
             debounceStartTime := p % 4294967296
             numberOfPresses := b.numberOfPresses + 1
             pressedStartTime := p % 4294967296
             triggeredHoldEvent := false
             changed := true } rfl rfl
    (fun u hu => by simpa [sub32_mod_right] using hpre u hu)
  have hhold := process_down_hold _ t h1 h2 (by rw [h3]; exact hp)
    (by rw [h3, h4]; simpa [sub32_mod_right] using ht)
  rw [List.map_append, run_append, countEvent_append, countEvent_of_all_nil _ _ h5]
  simp only [List.map_cons, run, hhold]
  have hpost := run_down_fired post _ (show ({ (run _ (pre.map (fun u => (true, u)))).1 with
      previous := true, changed := false, triggeredHoldEvent := true } : Button).current = true
      from h1) rfl
  have hzero := countEvent_of_all_nil Event.hold _ hpost
  simp only [countEvent, List.map_cons, List.sum_cons] at hzero ⊢
  rw [hzero]
  rfl

end Button

namespace Button

/-! ## Debounce rejection -/

/-- Claim C1: with debouncing enabled, a cycle whose reading differs from the
previous level while the time since `debounceStartTime` is below
`debounceDuration` recognises no press, release, click or hold, and leaves
`debounceStartTime`, `pressedStartTime` and `triggeredHoldEvent` unchanged. -/
theorem process_debounce_reject (b : Button) (reading : Bool) (millis : Nat)
    (hmode : b.debounceMode = true)
    (hedge : reading ≠ b.current)
    (hwin : sub32 millis b.debounceStartTime < u32 b.debounceDuration) :
    (b.process reading millis).2 = [] ∧
    (b.process reading millis).1.debounceStartTime = b.debounceStartTime ∧
    (b.process reading millis).1.pressedStartTime = b.pressedStartTime ∧
    (b.process reading millis).1.triggeredHoldEvent = b.triggeredHoldEvent := by
  rw [process_rejected b reading millis hmode hedge hwin]
  exact ⟨rfl, rfl, rfl, rfl⟩

/-- Claim C1 at a concrete input: the button was pressed at clock value 1000
and reads released 10 ms later, inside the window of 20 ms. -/
theorem process_debounce_reject_witness :
    ((fresh 0).process true 1000).1.debounceMode = true ∧
    false ≠ ((fresh 0).process true 1000).1.current ∧
    sub32 1010 ((fresh 0).process true 1000).1.debounceStartTime <
      u32 ((fresh 0).process true 1000).1.debounceDuration ∧
    ((((fresh 0).process true 1000).1.process false 1010).2 = [] ∧
     (((fresh 0).process true 1000).1.process false 1010).1.debounceStartTime =
       ((fresh 0).process true 1000).1.debounceStartTime ∧
     (((fresh 0).process true 1000).1.process false 1010).1.pressedStartTime =
       ((fresh 0).process true 1000).1.pressedStartTime ∧
     (((fresh 0).process true 1000).1.process false 1010).1.triggeredHoldEvent =
       ((fresh 0).process true 1000).1.triggeredHoldEvent) :=
  ⟨by decide, by decide, by decide,
    process_debounce_reject ((fresh 0).process true 1000).1 false 1010
      (by decide) (by decide) (by decide)⟩

/-! ## Click and hold -/

/-- Claim C2, evaluated: hold threshold 10 ms, debounce window 20 ms. The press
at 1000 is followed by a hold at 1011; the released reading at 1015 is
rejected, the pressed reading at 1030 is accepted as a second press, and the
release at 1060, the first accepted release after the press at 1000, comes
with a click. -/
theorem click_follows_hold_of_same_press :
    (run (setHoldThreshold (fresh 0) 10)
      [(true, 1000), (true, 1011), (false, 1015), (true, 1030), (false, 1060)]).2 =
      [[Event.press], [Event.hold], [], [Event.press], [Event.release, Event.click]] := by
  decide

/-! ## Hold threshold -/

/-- Claim C3 fails as stated: hold threshold 500 ms, press accepted at clock
value 0, still pressed at 500. The elapsed time 500 reaches the threshold, yet
the cycle at 500 recognises no hold. The same holds for a press at 1000 polled
at 1500 after initialisation at 0. -/
theorem hold_not_recognised_at_threshold :
    ((fresh 4294966296).process true 0).2 = [Event.press] ∧
    ((fresh 4294966296).process true 0).1.holdEventThreshold = 500 ∧
    500 ≤ sub32 500 ((fresh 4294966296).process true 0).1.pressedStartTime ∧
    (((fresh 4294966296).process true 0).1.process true 500).2 = [] ∧
    ((fresh 0).process true 1000).2 = [Event.press] ∧
    (((fresh 0).process true 1000).1.process true 1500).2 = [] := by
  decide

/-- Claim C3 (amended): a press accepted at clock value `p`, other than the
bit pattern of `-1`, that stays pressed: the cycles whose elapsed time
`now - p` (modulo `2^32`) is at most the hold threshold recognise nothing, and
the first cycle whose elapsed time is strictly greater than the threshold
recognises the hold. -/
theorem hold_first_strictly_past_threshold (b : Button) (p : Nat) (pre : List Nat) (t : Nat)
    (hrel : b.current = false)
    (hacc : ¬ (b.debounceMode = true ∧
      sub32 p b.debounceStartTime < u32 b.debounceDuration))
    (hp : p % 4294967296 ≠ noPress)
    (hpre : ∀ u ∈ pre, sub32 u p ≤ b.holdEventThreshold)
    (ht : b.holdEventThreshold < sub32 t p) :
    (b.process true p).2 = [Event.press] ∧
    (∀ evs ∈ (run (b.process true p).1 (pre.map (fun u => (true, u)))).2, evs = []) ∧
    ((run (b.process true p).1 (pre.map (fun u => (true, u)))).1.process true t).2 =
      [Event.hold] := by
  rw [process_press b p hrel hacc]
  refine ⟨rfl, ?_⟩
  obtain ⟨h1, h2, h3, h4, h5⟩ := run_down_waiting pre
    { b with previous := false, current := true
             debounceStartTime := p % 4294967296
             numberOfPresses := b.numberOfPresses + 1
             pressedStartTime := p % 4294967296
             triggeredHoldEvent := false
             changed := true } rfl rfl
    (fun u hu => by simpa [sub32_mod_right] using hpre u hu)
  refine ⟨h5, ?_⟩
  rw [process_down_hold _ t h1 h2 (by rw [h3]; exact hp)
    (by rw [h3, h4]; simpa [sub32_mod_right] using ht)]

/-- Claim C3 (amended) at a concrete input: press at 1000, threshold 500, polled
at 1100 and 1500 without a hold, hold at 1501. -/
theorem hold_first_strictly_past_threshold_witness :
    (fresh 0).current = false ∧
    (1000 % 4294967296 ≠ noPress) ∧
    (∀ u ∈ [1100, 1500], sub32 u 1000 ≤ (fresh 0).holdEventThreshold) ∧
    (fresh 0).holdEventThreshold < sub32 1501 1000 ∧
    (((fresh 0).process true 1000).2 = [Event.press] ∧
    (∀ evs ∈ (run ((fresh 0).process true 1000).1
        ([1100, 1500].map (fun u => (true, u)))).2, evs = []) ∧
    ((run ((fresh 0).process true 1000).1
        ([1100, 1500].map (fun u => (true, u)))).1.process true 1501).2 = [Event.hold]) :=
  ⟨by decide, by decide, by decide, by decide,
    hold_first_strictly_past_threshold (fresh 0) 1000 [1100, 1500] 1501
      (by decide) (by decide) (by decide) (by decide) (by decide)⟩

/-! ## Pairing of press and release -/

/-- Claim C4, evaluated: from a freshly initialised, released button and with
non-decreasing clock values, a rejected release (at 105) followed by a pressed
reading (at 130) gives two presses and no release; a rejected press (at 5)
followed by a released reading (at 30) gives a release without any press. -/
theorem press_release_counts_diverge :
    (fresh 0).current = false ∧
    (run (fresh 0) [(true, 100), (false, 105), (true, 130)]).2 =
      [[Event.press], [], [Event.press]] ∧
    countEvent Event.press (run (fresh 0) [(true, 100), (false, 105), (true, 130)]).2 = 2 ∧
    countEvent Event.release (run (fresh 0) [(true, 100), (false, 105), (true, 130)]).2 = 0 ∧
    (run (fresh 0) [(true, 5), (false, 30)]).2 = [[], [Event.release]] ∧
    countEvent Event.press (run (fresh 0) [(true, 5), (false, 30)]).2 = 0 ∧
    countEvent Event.release (run (fresh 0) [(true, 5), (false, 30)]).2 = 1 := by
  decide

/-- Claim C5, evaluated: debounce window 20 ms, hold threshold 500 ms, readings
pressed at 0, released at 10, released at 25. Only the press is recognised; the
cycle at 25 recognises neither release nor click. The same holds with all clock
values shifted by 100 after initialisation at 0. -/
theorem bounced_release_is_lost :
    (run (fresh 4294966296) [(true, 0), (false, 10), (false, 25)]).2 =
      [[Event.press], [], []] ∧
    (run (fresh 0) [(true, 100), (false, 110), (false, 125)]).2 =
      [[Event.press], [], []] := by
  decide

/-! ## Bursts of edges -/

/-- Claim C6 fails as stated: debounce window 20 ms, readings pressed at 1000,
released at 1005, pressed at 1010 and released at 1025, each edge less than
20 ms after the preceding one. The edges at 1005 and 1010 are rejected; the
edge at 1025, only 15 ms after the rejection at 1010 but 25 ms after the
accepted edge at 1000, is accepted: a release and a click are recognised. -/
theorem burst_edge_accepted_after_rejections :
    sub32 1005 1000 < 20 ∧ sub32 1010 1005 < 20 ∧ sub32 1025 1010 < 20 ∧
    (run (fresh 0) [(true, 1000), (false, 1005), (true, 1010), (false, 1025)]).2 =
      [[Event.press], [], [], [Event.release, Event.click]] ∧
    (run (fresh 0)
      [(true, 1000), (false, 1005), (true, 1010), (false, 1025)]).1.debounceStartTime = 1025 := by
  decide

/-- Claim C6 (amended): with debouncing enabled, after an edge accepted at clock
value `t0`, in every later cycle that lies less than `debounceDuration` after
`t0` no edge is accepted: the window start stays at `t0` and no press, release
or click is recognised. The window is measured from the last accepted edge. -/
theorem burst_inside_window_suppressed (b : Button) (reading : Bool) (t0 : Nat)
    (burst : List (Bool × Nat))
    (hmode : b.debounceMode = true)
    (hedge : reading ≠ b.current)
    (hacc : u32 b.debounceDuration ≤ sub32 t0 b.debounceStartTime)
    (hburst : ∀ x ∈ burst, sub32 x.2 t0 < u32 b.debounceDuration) :
    (b.process reading t0).2.head? =
      some (if reading = true then Event.press else Event.release) ∧
    (run (b.process reading t0).1 burst).1.debounceStartTime = t0 % 4294967296 ∧
    ∀ evs ∈ (run (b.process reading t0).1 burst).2,
      Event.press ∉ evs ∧ Event.release ∉ evs ∧ Event.click ∉ evs := by
  obtain ⟨h1, h2, h3, h4⟩ := process_accepted b reading t0 hedge hacc
  obtain ⟨h5, h6⟩ := run_in_window burst (b.process reading t0).1 (by rw [h1, hmode])
    (fun x hx => by rw [h2, h3, sub32_mod_right]; exact hburst x hx)
  refine ⟨h4, by rw [h5, h3], ?_⟩
  intro evs hevs
  rcases h6 evs hevs with h | h <;> simp [h]

/-- Claim C6 (amended) at a concrete input: press accepted at 1000, then edges
at 1005, 1010 and 1019, all inside the window of 20 ms. -/
theorem burst_inside_window_suppressed_witness :
    (fresh 0).debounceMode = true ∧
    true ≠ (fresh 0).current ∧
    u32 (fresh 0).debounceDuration ≤ sub32 1000 (fresh 0).debounceStartTime ∧
    (∀ x ∈ [(false, 1005), (true, 1010), (false, 1019)],
      sub32 x.2 1000 < u32 (fresh 0).debounceDuration) ∧
    (((fresh 0).process true 1000).2.head? =
      some (if true = true then Event.press else Event.release) ∧
    (run ((fresh 0).process true 1000).1
      [(false, 1005), (true, 1010), (false, 1019)]).1.debounceStartTime = 1000 % 4294967296 ∧
    ∀ evs ∈ (run ((fresh 0).process true 1000).1
        [(false, 1005), (true, 1010), (false, 1019)]).2,
      Event.press ∉ evs ∧ Event.release ∉ evs ∧ Event.click ∉ evs) :=
  ⟨by decide, by decide, by decide, by decide,
    burst_inside_window_suppressed (fresh 0) true 1000
      [(false, 1005), (true, 1010), (false, 1019)]
      (by decide) (by decide) (by decide) (by decide)⟩

/-! ## The `CHANGED` bit and the polling queries -/

/-- Claim C7, evaluated: after the press accepted at 1000 the `CHANGED` bit is
set; the released reading at 1010 is suppressed by the debounce window of 20 ms
and recognises nothing, yet `stateChanged()` is still true after that cycle. -/
theorem changed_stale_after_suppressed_edge :
    ((fresh 0).process true 1000).1.stateChanged = true ∧
    (run (fresh 0) [(true, 1000), (false, 1010)]).2 = [[Event.press], []] ∧
    (run (fresh 0) [(true, 1000), (false, 1010)]).1.debounceStartTime = 1000 ∧
    (run (fresh 0) [(true, 1000), (false, 1010)]).1.stateChanged = true := by
  decide

/-- Claim C8, evaluated: press accepted at 1000, released reading at 1005 and
pressed reading at 1010 both suppressed by the debounce window of 20 ms. The
cycle at 1010 recognises no press, yet `uniquePress()` is true after it. -/
theorem uniquePress_true_without_press :
    (run (fresh 0) [(true, 1000), (false, 1005), (true, 1010)]).2 =
      [[Event.press], [], []] ∧
    (run (fresh 0) [(true, 1000), (false, 1005), (true, 1010)]).1.uniquePress = true := by
  decide

/-! ## Number of holds per press -/

/-- Claim C9, evaluated: `holdRepeats` false, hold threshold 500 ms, press
accepted at clock value `2^32 - 1`, still pressed 501 ms and 1001 ms later
(clock values 500 and 1000 after the wrap). No hold is recognised. -/
theorem no_hold_for_press_at_clock_maximum :
    (fresh 0).holdRepeats = false ∧
    sub32 500 4294967295 = 501 ∧
    sub32 1000 4294967295 = 1001 ∧
    (run (fresh 0) [(true, 4294967295), (true, 500), (true, 1000)]).2 =
      [[Event.press], [], []] ∧
    (run (fresh 0) [(true, 4294967295), (true, 500), (true, 1000)]).1.held = false := by
  decide

end Button

namespace Button

/-! ## The blink cycle -/

/-- Halving after adding one rounds the half up. -/
theorem half_up_eq_ceil (n : Nat) : (n + 1) / 2 = ⌈(n : ℚ) / 2⌉₊ := by
  obtain ⟨k, hk | hk⟩ := Nat.even_or_odd' n
  · subst hk
    have h1 : (2 * k + 1) / 2 = k := by omega
    have h2 : ((2 * k : ℕ) : ℚ) / 2 = (k : ℚ) := by push_cast; ring
    rw [h1, h2, Nat.ceil_natCast]
  · subst hk
    have h1 : (2 * k + 1 + 1) / 2 = k + 1 := by omega
    rw [h1]
    symm
    apply (Nat.ceil_eq_iff (by omega)).mpr
    constructor
    · push_cast
      linarith
    · push_cast
      linarith

/-- Where the sum `m_nHolds + 1` does not wrap, that is with an `int` wider
than 16 bits or a count below 65535, `cycle` returns `(0, false)` when `held()`
is false and otherwise the count halved and rounded up with the parity of the
count. -/
theorem cycle_eq_ceil_half_of_no_wrap (intBits : Nat) (held : Bool) (n : Nat)
    (hn : n ≤ 65535) (hnowrap : 16 < intBits ∨ n < 65535) :
    cycle intBits held n =
      if held = true then (⌈(n : ℚ) / 2⌉₊, decide (n % 2 = 1)) else (0, false) := by
  have hmod : n % 65536 = n := Nat.mod_eq_of_lt (by omega)
  have hsum : (if intBits ≤ 16 then (n + 1) % 65536 else n + 1) = n + 1 := by
    rcases hnowrap with h | h
    · rw [if_neg (by omega)]
    · split
      · exact Nat.mod_eq_of_lt (by omega)
      · rfl
  unfold cycle
  simp only [hmod, hsum]
  cases held
  · simp
  · rw [half_up_eq_ceil, Nat.and_one_is_mod]
    rcases Nat.mod_two_eq_zero_or_one n with h | h <;> simp [h]

/-- Claim C11, evaluated: with the 16-bit `int` of an AVR build, a held button
whose hold count is 65535 gets the cycle number 0 (and `on` true), where half
the count rounded up is 32768; with a 32-bit `int` the same state gives 32768.
For a held button with three holds both give `(2, true)`. -/
theorem cycle_wraps_at_full_count :
    cycle 16 true 65535 = (0, true) ∧
    ⌈((65535 : ℕ) : ℚ) / 2⌉₊ = 32768 ∧
    cycle 32 true 65535 = (32768, true) ∧
    cycle 16 true 3 = (2, true) ∧
    cycle 32 true 3 = (2, true) := by
  refine ⟨by decide, ?_, by decide, by decide, by decide⟩
  rw [← half_up_eq_ceil]

end Button

namespace Button

/-! ## Events and levels of a single cycle -/

/-- Claim C12: the events recognised by one cycle are nothing, a press, a
release, a release followed by a click, or a hold; so a hold never shares a
cycle with a press, a release or a click, and a click comes after a release. -/
theorem process_events_shape (b : Button) (reading : Bool) (millis : Nat) :
    (b.process reading millis).2 = [] ∨
    (b.process reading millis).2 = [Event.press] ∨
    (b.process reading millis).2 = [Event.release] ∨
    (b.process reading millis).2 = [Event.release, Event.click] ∨
    (b.process reading millis).2 = [Event.hold] := by
  unfold process
  dsimp only
  split
  · split
    · simp
    · split
      · simp
      · cases b.triggeredHoldEvent <;> simp
  · split
    · split <;> simp
    · simp

/-- Claim C16: after a cycle the previous level is the current level from
before the call and the current level, which `pressed()` returns, is the
reading of this cycle, also when the edge is rejected by debounce. -/
theorem process_shifts_levels (b : Button) (reading : Bool) (millis : Nat) :
    (b.process reading millis).1.previous = b.current ∧
    (b.process reading millis).1.current = reading ∧
    (b.process reading millis).1.pressed = reading := by
  unfold process pressed
  dsimp only
  split
  · split
    · simp
    · split <;> simp
  · split
    · split <;> simp
    · simp

end Button

namespace Button

/-! ## The polling queries after a cycle -/

/-- After a cycle `held()` is true exactly when the cycle recognised the hold,
or `held()` was true before and the cycle recognised nothing. -/
theorem held_process_iff (b : Button) (reading : Bool) (millis : Nat) :
    (b.process reading millis).1.held = true ↔
      (Event.hold ∈ (b.process reading millis).2 ∨
        (b.held = true ∧ (b.process reading millis).2 = [])) := by
  unfold process held
  dsimp only
  split
  · split
    · simp
    · split
      · simp
      · simp [noPress]
  · split
    · rename_i h
      simp only [Bool.and_eq_true, bne_iff_ne, ne_eq, Bool.not_eq_true'] at h
      split <;> simp [h.1.1, h.1.2]
    · simp

/-- After an accepted press `holdTime` is the clock difference to the press. -/
theorem holdTime_after_press (b : Button) (p now : Nat) (hrel : b.current = false)
    (hacc : ¬ (b.debounceMode = true ∧
      sub32 p b.debounceStartTime < u32 b.debounceDuration)) :
    (b.process true p).1.holdTime now = sub32 now p := by
  rw [process_press b p hrel hacc]
  simp [holdTime, pressed, sub32_mod_left, sub32_mod_right]

/-- A cycle without edge while the button is down and no press time is
recorded recognises nothing. -/
theorem process_down_absent (b : Button) (millis : Nat) (hcur : b.current = true)
    (habs : b.pressedStartTime = noPress) :
    b.process true millis = ({ b with previous := true, changed := false }, []) := by
  simp [process, hcur, habs]

/-- While no press time is recorded, pressed cycles recognise nothing and
`held()` stays false. -/
theorem run_down_absent (post : List Nat) (s : Button) (hcur : s.current = true)
    (habs : s.pressedStartTime = noPress) :
    (run s (post.map (fun u => (true, u)))).1.held = false ∧
    ∀ evs ∈ (run s (post.map (fun u => (true, u)))).2, evs = [] := by
  induction post generalizing s with
  | nil => simp [run, held, habs]
  | cons u rest ih =>
    have hstep := process_down_absent s u hcur habs
    have hrest := ih { s with previous := true, changed := false } hcur habs
    simp only [List.map_cons, run, hstep]
    refine ⟨hrest.1, ?_⟩
    intro evs hevs
    rcases List.mem_cons.mp hevs with h | h
    · exact h
    · exact hrest.2 evs h

end Button

namespace Button

/-- Claim C13, evaluated: press accepted at 1000, release accepted at 1100,
pressed reading at 1110 rejected by the debounce window of 20 ms. The button
then counts as pressed, the most recent accepted press lies 115 ms before
clock value 1115, and `holdTime` at 1115 returns 1116. The second input is a
pressed reading 5 ms after initialisation, rejected, with no press accepted at
all: `holdTime` at 10 returns 10. -/
theorem holdTime_not_since_accepted_press :
    (run (fresh 0) [(true, 1000), (false, 1100), (true, 1110)]).2 =
      [[Event.press], [Event.release, Event.click], []] ∧
    (run (fresh 0) [(true, 1000), (false, 1100), (true, 1110)]).1.pressed = true ∧
    sub32 1115 1000 = 115 ∧
    (run (fresh 0) [(true, 1000), (false, 1100), (true, 1110)]).1.holdTime 1115 = 1116 ∧
    (run (fresh 0) [(true, 5)]).2 = [[]] ∧
    (run (fresh 0) [(true, 5)]).1.pressed = true ∧
    (run (fresh 0) [(true, 5)]).1.holdTime 10 = 10 := by
  decide

/-- Claim C14, evaluated: press accepted at 1000, released reading at 1010
rejected by the debounce window of 20 ms: `pressed()` is false while
`pressedStartTime` still holds 1000. Press accepted at 1000, release accepted
at 1100, pressed reading at 1110 rejected: `pressed()` is true while
`pressedStartTime` holds the bit pattern of `-1`. -/
theorem press_time_and_level_disagree :
    (run (fresh 0) [(true, 1000), (false, 1010)]).2 = [[Event.press], []] ∧
    (run (fresh 0) [(true, 1000), (false, 1010)]).1.pressed = false ∧
    (run (fresh 0) [(true, 1000), (false, 1010)]).1.pressedStartTime = 1000 ∧
    (run (fresh 0) [(true, 1000), (false, 1100), (true, 1110)]).1.pressed = true ∧
    (run (fresh 0) [(true, 1000), (false, 1100), (true, 1110)]).1.pressedStartTime = noPress := by
  decide

/-- Claim C15, evaluated: hold threshold 10 ms, debounce window 20 ms, press
accepted at 1000, hold at 1011, released reading at 1015 rejected: after that
cycle `held()` is true and `pressed()` is false. Moreover a zero-filled object
reports `held()` right after `init` and after a first cycle with a released
reading, before any press. -/
theorem held_while_not_pressed :
    (run (setHoldThreshold (fresh 0) 10) [(true, 1000), (true, 1011), (false, 1015)]).2 =
      [[Event.press], [Event.hold], []] ∧
    (run (setHoldThreshold (fresh 0) 10)
      [(true, 1000), (true, 1011), (false, 1015)]).1.held = true ∧
    (run (setHoldThreshold (fresh 0) 10)
      [(true, 1000), (true, 1011), (false, 1015)]).1.pressed = false ∧
    (fresh 0).held = true ∧
    (fresh 0).pressed = false ∧
    ((fresh 0).process false 1000).2 = [] ∧
    ((fresh 0).process false 1000).1.held = true ∧
    ((fresh 0).process false 1000).1.pressed = false := by
  decide

/-- Claim C18, evaluated: a press accepted at clock value `2^32 - 1` is
recognised, but `pressedStartTime` then holds the bit pattern of `-1`, which
reads as no press: however long the button stays pressed afterwards, no hold
is recognised and `held()` stays false. -/
theorem press_at_clock_maximum_not_recorded :
    ((fresh 0).process true 4294967295).2 = [Event.press] ∧
    ((fresh 0).process true 4294967295).1.pressedStartTime = noPress ∧
    ∀ post : List Nat,
      (run ((fresh 0).process true 4294967295).1 (post.map (fun u => (true, u)))).1.held
        = false ∧
      ∀ evs ∈ (run ((fresh 0).process true 4294967295).1 (post.map (fun u => (true, u)))).2,
        evs = [] :=
  ⟨by decide, by decide, fun post =>
    run_down_absent post ((fresh 0).process true 4294967295).1 (by decide) (by decide)⟩

end Button

namespace Button

/-! ## The clock wrapping once -/

/-- The 32-bit difference recovers an elapsed time below `2^32`. -/
theorem sub32_add_mod (s d : Nat) (hs : s < 4294967296) (hd : d < 4294967296) :
    sub32 ((s + d) % 4294967296) s = d := by
  unfold sub32
  omega

/-- A window length within the range of `uint32_t` is compared as it stands. -/
theorem u32_le_iff (D : Int) (d : Nat) (h0 : 0 ≤ D) (h1 : D < 4294967296) :
    u32 D ≤ d ↔ D ≤ (d : Int) := by
  unfold u32
  rw [Int.emod_eq_of_lt h0 h1]
  omega

/-- With debouncing enabled a cycle with an edge recognises something exactly
when the edge lies outside the debounce window. -/
theorem process_edge_events_ne_nil (b : Button) (reading : Bool) (millis : Nat)
    (hmode : b.debounceMode = true) (hedge : reading ≠ b.current) :
    (b.process reading millis).2 ≠ [] ↔
      u32 b.debounceDuration ≤ sub32 millis b.debounceStartTime := by
  by_cases hwin : sub32 millis b.debounceStartTime < u32 b.debounceDuration
  · rw [process_rejected b reading millis hmode hedge hwin]
    simp [hwin]
  · have hacc := Nat.not_lt.mp hwin
    have h4 := (process_accepted b reading millis hedge hacc).2.2.2
    constructor
    · intro _; exact hacc
    · intro _ hnil
      rw [hnil] at h4
      simp at h4

/-- A time `d` below `2^32` elapsed since clock value `s` is recovered by the
32-bit difference, also when the clock wrapped in between. Where the debounce
duration is not negative and `s` is not the bit pattern of `-1`, an edge `d`
after the last accepted edge is, with debouncing enabled, accepted exactly
when `d` is at least the debounce duration, and an armed pressed button whose
press was recorded at `s` recognises the hold exactly when `d` exceeds the
hold threshold. -/
theorem elapsed_time_survives_wrap (b h : Button) (reading : Bool) (s d : Nat)
    (hs : s < 4294967296) (hd : d < 4294967296)
    (hmode : b.debounceMode = true) (hstart : b.debounceStartTime = s)
    (hedge : reading ≠ b.current)
    (hD0 : 0 ≤ b.debounceDuration) (hD1 : b.debounceDuration < 4294967296)
    (hcur : h.current = true) (harmed : h.triggeredHoldEvent = false)
    (hpress : h.pressedStartTime = s) (hrec : s ≠ noPress) :
    sub32 ((s + d) % 4294967296) s = d ∧
    ((b.process reading ((s + d) % 4294967296)).2 ≠ [] ↔ b.debounceDuration ≤ (d : Int)) ∧
    ((h.process true ((s + d) % 4294967296)).2 = [Event.hold] ↔ h.holdEventThreshold < d) := by
  have hsub := sub32_add_mod s d hs hd
  refine ⟨hsub, ?_, ?_⟩
  · rw [process_edge_events_ne_nil b reading _ hmode hedge, hstart, hsub]
    exact u32_le_iff _ _ hD0 hD1
  · by_cases hgt : h.holdEventThreshold < d
    · rw [process_down_hold h _ hcur harmed (by rw [hpress]; exact hrec)
        (by rw [hpress, hsub]; exact hgt)]
      simp [hgt]
    · rw [process_down_waiting h _ hcur harmed (by rw [hpress, hsub]; omega)]
      simp [hgt]

/-- The wrap at a concrete input: last edge and press at `2^32 - 6`, and 600 ms
later the clock reads 594. -/
theorem elapsed_time_survives_wrap_witness :
    (4294967290 + 600) % 4294967296 = 594 ∧
    (sub32 ((4294967290 + 600) % 4294967296) 4294967290 = 600 ∧
    ((((fresh 0).process true 4294967290).1.process false
        ((4294967290 + 600) % 4294967296)).2 ≠ [] ↔
      ((fresh 0).process true 4294967290).1.debounceDuration ≤ ((600 : Nat) : Int)) ∧
    ((((fresh 0).process true 4294967290).1.process true
        ((4294967290 + 600) % 4294967296)).2 = [Event.hold] ↔
      ((fresh 0).process true 4294967290).1.holdEventThreshold < 600)) :=
  ⟨by decide,
    elapsed_time_survives_wrap ((fresh 0).process true 4294967290).1
      ((fresh 0).process true 4294967290).1 false 4294967290 600
      (by decide) (by decide) (by decide) (by decide) (by decide) (by decide) (by decide)
      (by decide) (by decide) (by decide) (by decide)⟩

/-- Claim C17, evaluated: a press accepted at clock value `2^32 - 1`, polled
600 ms later when the wrapped clock reads 599. The 32-bit difference gives the
true 600 ms, above the hold threshold of 500 ms, yet no hold is recognised:
the recorded press time is the bit pattern of `-1` and the comparison is
skipped. Second input: a debounce duration of `-1` is compared as `2^32 - 1`,
so an edge 1000 ms after the last accepted edge is rejected. -/
theorem wrapped_elapsed_time_not_compared :
    ((fresh 0).process true 4294967295).2 = [Event.press] ∧
    (4294967295 + 600) % 4294967296 = 599 ∧
    sub32 599 ((fresh 0).process true 4294967295).1.pressedStartTime = 600 ∧
    ((fresh 0).process true 4294967295).1.holdEventThreshold = 500 ∧
    (((fresh 0).process true 4294967295).1.process true 599).2 = [] ∧
    (init blank sampleConsts 1 true (-1) 0).debounceDuration = -1 ∧
    sub32 1000 (init blank sampleConsts 1 true (-1) 0).debounceStartTime = 1000 ∧
    ((init blank sampleConsts 1 true (-1) 0).process true 1000).2 = [] := by
  decide

end Button

namespace Button

/-! ## Debouncing disabled -/

theorem pressRelease_cons (evs : List Event) (trace : List (List Event)) :
    pressRelease (evs :: trace) =
      evs.filter (fun e => e == Event.press || e == Event.release) ++ pressRelease trace := by
  simp [pressRelease]

/-- With debouncing disabled a cycle with an edge recognises exactly one press
(new level down) or one release (new level up), possibly followed by a click,
and sets the `CHANGED` bit. -/
theorem process_no_debounce_edge (b : Button) (reading : Bool) (millis : Nat)
    (hmode : b.debounceMode = false) (hedge : reading ≠ b.current) :
    (b.process reading millis).2.filter (fun e => e == Event.press || e == Event.release) =
      [if reading = true then Event.press else Event.release] ∧
    (b.process reading millis).2.count Event.press = (if reading = true then 1 else 0) ∧
    (b.process reading millis).2.count Event.release = (if reading = true then 0 else 1) ∧
    (b.process reading millis).1.changed = true := by
  cases reading
  · have hcur : b.current = true := by
      cases h : b.current
      · exact absurd h.symm hedge
      · rfl
    cases ht : b.triggeredHoldEvent <;> simp [process, hcur, hmode, ht]
  · have hcur : b.current = false := by
      cases h : b.current
      · rfl
      · exact absurd h.symm hedge
    simp [process, hcur, hmode]

/-- A cycle without edge recognises neither press nor release. -/
theorem process_steady_no_edge_event (b : Button) (millis : Nat) :
    (b.process b.current millis).2.filter
      (fun e => e == Event.press || e == Event.release) = [] := by
  simp only [process, bne_self_eq_false, Bool.false_eq_true, if_false]
  split <;> [split; skip] <;> simp

/-- After a cycle the current level is the reading. -/
theorem process_current (b : Button) (reading : Bool) (millis : Nat) :
    (b.process reading millis).1.current = reading := by
  unfold process
  dsimp only
  split
  · split
    · simp
    · split <;> simp
  · split
    · split <;> simp
    · simp

/-- Every cycle keeps the debounce mode. -/
theorem process_debounceMode (b : Button) (reading : Bool) (millis : Nat) :
    (b.process reading millis).1.debounceMode = b.debounceMode := by
  unfold process
  dsimp only
  split
  · split
    · simp
    · split <;> simp
  · split
    · split <;> simp
    · simp

/-- With debouncing disabled the press and release events of a polling loop
alternate, beginning with the event that leaves the level the loop starts in. -/
theorem run_no_debounce_alternating (inputs : List (Bool × Nat)) (s : Button)
    (hmode : s.debounceMode = false) :
    alternating s.current (pressRelease (run s inputs).2) = true := by
  induction inputs generalizing s with
  | nil => simp [run, pressRelease, alternating]
  | cons x rest ih =>
    obtain ⟨reading, millis⟩ := x
    have hnext := ih (s.process reading millis).1 (by rw [process_debounceMode, hmode])
    rw [process_current] at hnext
    simp only [run, pressRelease_cons]
    by_cases hedge : reading = s.current
    · subst hedge
      rw [process_steady_no_edge_event]
      simpa using hnext
    · rw [(process_no_debounce_edge s reading millis hmode hedge).1]
      cases reading
      · have hcur : s.current = true := by
          cases h : s.current
          · exact absurd h.symm hedge
          · rfl
        simpa [alternating, hcur] using hnext
      · have hcur : s.current = false := by
          cases h : s.current
          · rfl
          · exact absurd h.symm hedge
        simpa [alternating, hcur] using hnext

/-- Claim C19: with debouncing disabled, a cycle whose reading differs from
the previous level recognises exactly one press (new level down) or exactly one
release (new level up) and sets the `CHANGED` bit; and in a polling loop that
starts from a released level the press and release events alternate, beginning
with a press. -/
theorem no_debounce_edges_alternate (b : Button) (reading : Bool) (millis : Nat)
    (s : Button) (inputs : List (Bool × Nat))
    (hb : b.debounceMode = false) (hedge : reading ≠ b.current)
    (hs : s.debounceMode = false) (hrel : s.current = false) :
    (b.process reading millis).2.count Event.press = (if reading = true then 1 else 0) ∧
    (b.process reading millis).2.count Event.release = (if reading = true then 0 else 1) ∧
    (b.process reading millis).1.stateChanged = true ∧
    alternating false (pressRelease (run s inputs).2) = true := by
  obtain ⟨_, h2, h3, h4⟩ := process_no_debounce_edge b reading millis hb hedge
  refine ⟨h2, h3, h4, ?_⟩
  have halt := run_no_debounce_alternating inputs s hs
  rw [hrel] at halt
  exact halt

/-- Claim C19 at a concrete input: a pull-up button initialised without
debouncing, read pressed at 3, released at 4, pressed at 5 and released at 6. -/
theorem no_debounce_edges_alternate_witness :
    (init blank sampleConsts 1 false 20 0).debounceMode = false ∧
    true ≠ (init blank sampleConsts 1 false 20 0).current ∧
    pressRelease (run (init blank sampleConsts 1 false 20 0)
      [(true, 3), (false, 4), (false, 4), (true, 5), (false, 6)]).2 =
      [Event.press, Event.release, Event.press, Event.release] ∧
    (((init blank sampleConsts 1 false 20 0).process true 3).2.count Event.press =
      (if true = true then 1 else 0) ∧
    ((init blank sampleConsts 1 false 20 0).process true 3).2.count Event.release =
      (if true = true then 0 else 1) ∧
    ((init blank sampleConsts 1 false 20 0).process true 3).1.stateChanged = true ∧
    alternating false (pressRelease (run (init blank sampleConsts 1 false 20 0)
      [(true, 3), (false, 4), (false, 4), (true, 5), (false, 6)]).2) = true) :=
  ⟨by decide, by decide, by decide,
    no_debounce_edges_alternate (init blank sampleConsts 1 false 20 0) true 3
      (init blank sampleConsts 1 false 20 0)
      [(true, 3), (false, 4), (false, 4), (true, 5), (false, 6)]
      (by decide) (by decide) (by decide) (by decide)⟩

end Button

namespace Button

/-! ## Repeating holds on the detector of the spec -/

end Button
